import Mathlib

/-!
# drone-tf-outputs-to-env: a shallow embedding of `plugin.go`

The plugin drives `terraform` through a fixed list of commands and then turns
the JSON printed by `terraform output -json` into an env-file and a printed
report.

Go strings are modelled by `String`, `[]string` by `List String`, `*bool` by
`Option Bool`.  Everything the program asks of the operating system or of a
library (running a process, writing a file, decoding JSON, looking up the
current user or directory) is a field of `World`; every function returns the
list of effects it performed, in order, together with its Go result.
-/

namespace TfOutputs

/-! ## `fmt`: the fragment of `Sprintf` the program uses -/

/-- The dynamic values that reach `fmt` in this program: what `encoding/json`
stores in an `interface{}` (nil, bool, float64, string, `[]interface{}`,
`map[string]interface{}`), and the plain `string` and `bool` operands of the
other `Sprintf` calls.  Floating point is outside the embedding: a `float64`
is carried as the text `%v` prints for it.  A map is carried as its entries in
ascending key order, the order in which `fmt` prints them. -/
inductive Value
  | null
  | bool (b : Bool)
  | float64 (g : String)
  | string (s : String)
  | slice (xs : List Value)
  | map (kvs : List (String × Value))

/-- The verbs interpreted by the model. -/
inductive Verb
  | s
  | t
  | v
deriving DecidableEq

def Verb.rune : Verb → Char
  | .s => 's'
  | .t => 't'
  | .v => 'v'

/-- The text of `reflect.TypeOf(x).String()` for a non-nil value. -/
def typeString : Value → String
  | .null => "<nil>"
  | .bool _ => "bool"
  | .float64 _ => "float64"
  | .string _ => "string"
  | .slice _ => "[]interface {}"
  | .map _ => "map[string]interface {}"

/-- The method `(*pp).badVerb` for an operand of type `ty` whose `%v` text is `val`. -/
def badVerb (verb : Verb) (ty : String) (val : String) : String :=
  "%!" ++ verb.rune.toString ++ "(" ++ ty ++ "=" ++ val ++ ")"

/-- The method `(*pp).fmtBool`: verbs `t` and `v` print the boolean. -/
def fmtBool (verb : Verb) (b : Bool) : String :=
  match verb with
  | .t => if b then "true" else "false"
  | .v => if b then "true" else "false"
  | .s => badVerb verb "bool" (if b then "true" else "false")

/-- The method `(*pp).fmtFloat` on a float64 whose `%v` text is `g`. -/
def fmtFloat (verb : Verb) (g : String) : String :=
  match verb with
  | .v => g
  | .s => badVerb verb "float64" g
  | .t => badVerb verb "float64" g

/-- The method `(*pp).fmtString`: verbs `s` and `v` print the string as it is. -/
def fmtString (verb : Verb) (s : String) : String :=
  match verb with
  | .s => s
  | .v => s
  | .t => badVerb verb "string" s

mutual
/-- The method `(*pp).printValue` on a value held in an interface: a slice prints as
`[e1 e2]`, a map as `map[k1:v1 k2:v2]`, a nil element as `<nil>`, and the verb
is handed down to the elements. -/
def printValue (verb : Verb) : Value → String
  | .null => "<nil>"
  | .bool b => fmtBool verb b
  | .float64 g => fmtFloat verb g
  | .string s => fmtString verb s
  | .slice xs => "[" ++ printElems verb xs ++ "]"
  | .map kvs => "map[" ++ printEntries verb kvs ++ "]"
/-- The elements of a slice, the first one without a leading blank. -/
def printElems (verb : Verb) : List Value → String
  | [] => ""
  | x :: xs => printValue verb x ++ printElemsTail verb xs
/-- The elements of a slice after the first, each after a blank. -/
def printElemsTail (verb : Verb) : List Value → String
  | [] => ""
  | x :: xs => " " ++ printValue verb x ++ printElemsTail verb xs
/-- The entries of a map, the first one without a leading blank. -/
def printEntries (verb : Verb) : List (String × Value) → String
  | [] => ""
  | (k, x) :: xs => fmtString verb k ++ ":" ++ printValue verb x ++ printEntriesTail verb xs
/-- The entries of a map after the first, each after a blank. -/
def printEntriesTail (verb : Verb) : List (String × Value) → String
  | [] => ""
  | (k, x) :: xs =>
    " " ++ fmtString verb k ++ ":" ++ printValue verb x ++ printEntriesTail verb xs
end

/-- The method `(*pp).printArg`: a nil operand is `<nil>` under `%v` and a bad verb
otherwise; any other operand is printed by `printValue`. -/
def printArg (verb : Verb) : Value → String
  | .null =>
    match verb with
    | .v => "<nil>"
    | .s => "%!" ++ verb.rune.toString ++ "(<nil>)"
    | .t => "%!" ++ verb.rune.toString ++ "(<nil>)"
  | x => printValue verb x

/-- One operand in the `%!(EXTRA ...)` tail. -/
def extraArg : Value → String
  | .null => "<nil>"
  | x => typeString x ++ "=" ++ printArg .v x

/-- The operands left over when the format is used up, separated by `, `. -/
def extraArgs : List Value → String
  | [] => ""
  | [x] => extraArg x
  | x :: y :: rest => extraArg x ++ ", " ++ extraArgs (y :: rest)

/-- The verb named by a character, if the model interprets it. -/
def verbOf (c : Char) : Option Verb :=
  if c = 's' then some .s
  else if c = 't' then some .t
  else if c = 'v' then some .v
  else none

/-- The method `(*pp).doPrintf`, for formats made of plain text and the directives `%s`,
`%t`, `%v` and `%%` (the formats of the program use `%s` and `%t` only; flags,
widths and other verbs are not modelled and are copied as text).  A directive
without an operand prints `%!s(MISSING)`, left-over operands print as
`%!(EXTRA ...)`, a trailing `%` prints `%!(NOVERB)`. -/
def doPrintf : List Char → List Value → String
  | [], [] => ""
  | [], a :: as => "%!(EXTRA " ++ extraArgs (a :: as) ++ ")"
  | [c], as =>
    if c = '%' then "%!(NOVERB)" ++ doPrintf [] as
    else c.toString ++ doPrintf [] as
  | c :: d :: rest, as =>
    if c = '%' then
      if d = '%' then "%" ++ doPrintf rest as
      else
        match verbOf d with
        | some verb =>
          match as with
          | [] => "%!" ++ verb.rune.toString ++ "(MISSING)" ++ doPrintf rest []
          | a :: as' => printArg verb a ++ doPrintf rest as'
        | none => c.toString ++ doPrintf (d :: rest) as
    else c.toString ++ doPrintf (d :: rest) as

/-- The function `fmt.Sprintf(format, a...)`. -/
def Sprintf (format : String) (a : List Value) : String :=
  doPrintf format.data a

/-! ## Data model -/

/-- The struct `InitOptions`: options for the init command of terraform. -/
structure InitOptions where
  BackendConfig : List String
  Lock : Option Bool
  LockTimeout : String

/-- The struct `Config`: input parameters of the plugin. -/
structure Config where
  InitOptions : InitOptions
  Cacert : String
  Sensitive : Bool
  RoleARN : String
  RootDir : String
  TerraformDataDir : String
  ExportEnvs : Bool
  EnvFile : String
  EnvPrefix : String

/-- The struct `Netrc`: credentials for cloning. -/
structure Netrc where
  Machine : String
  Login : String
  Password : String

/-- Modelled from the spec: the `Terraform` struct is declared outside the
given sources; `Exec` and `main.go` use its `Version` field only, the pinned
tool version. -/
structure Terraform where
  Version : String

/-- The struct `Plugin`: the plugin instance to be executed. -/
structure Plugin where
  Config : Config
  Netrc : Netrc
  Terraform : Terraform

/-- The struct `TerraformOutput`: one entry of `terraform output -json`. -/
structure TerraformOutput where
  Sensitive : Bool
  Type_ : String
  Value : Value

/-- The struct `exec.Cmd`, the fields the program reads or writes.  `Args` holds the
command name followed by its arguments, as `exec.Command` builds it. -/
structure Cmd where
  Path : String
  Args : List String
  Dir : String
deriving DecidableEq

/-- The function `exec.Command(name, arg...)`: no working directory of its own. -/
def Command (name : String) (arg : List String) : Cmd :=
  { Path := name, Args := name :: arg, Dir := "" }

/-! ## Effects -/

/-- What `json.Unmarshal(out, &j)` leaves behind: the entries of `j` in the
order in which the `range` loop visits them, and the error it returns.  The
two are independent: on a document that is valid JSON but of the wrong shape
the decoder reports an error and still stores what it could decode. -/
structure UnmarshalResult where
  j : List (String × TerraformOutput)
  err : Option String

/-- Temporary credentials returned by the role provider. -/
structure Credentials where
  AccessKeyID : String
  SecretAccessKey : String
  SessionToken : String

/-- The program's surroundings.  `installTerraform` is declared outside the
given sources and appears here by its result only; `run i c` is the result of
the `i`-th `c.Run()` of the command loop (`none` = exit status zero). -/
structure World where
  installTerraform : String → Option String
  getCredentials : String → Except String Credentials
  userCurrent : Option String
  getwd : Option String
  filepathJoin : String → String → String
  writeFile : String → String → Nat → Option String
  run : Nat → Cmd → Option String
  output : Cmd → Except String (List UInt8)
  jsonUnmarshal : List UInt8 → UnmarshalResult

/-- An observable effect of the plugin. -/
inductive Event
  | install (version : String)
  | setenv (key : String) (value : String)
  | writeFile (path : String) (data : String) (perm : Nat)
  | print (text : String)
  | run (c : Cmd)
  | output (c : Cmd)
  | fatal (msg : String)
deriving DecidableEq

/-- How `Exec` ends: it returns an error value to its caller, or `logrus.Fatal`
logs and ends the process with a non-zero status. -/
inductive Outcome
  | returned (err : Option String)
  | exited
deriving DecidableEq

/-! ## Operations of `plugin.go` -/

/-- The function `deleteCache`: `rm -rf <terraformDataDir>`. -/
def deleteCache (terraformDataDir : String) : Cmd :=
  Command "rm" ["-rf", terraformDataDir]

/-- The function `getModules`: `terraform get`. -/
def getModules : Cmd :=
  Command "terraform" ["get"]

/-- The function `initCommand`: `terraform init` with the flags derived from the
options, appended in the order of the source. -/
def initCommand (config : InitOptions) : Cmd :=
  let args := ["init"]
  let args := config.BackendConfig.foldl
    (fun args v => args ++ [Sprintf "-backend-config=%s" [.string v]]) args
  let args :=
    match config.Lock with
    | some lock => args ++ [Sprintf "-lock=%t" [.bool lock]]
    | none => args
  let args :=
    if config.LockTimeout ≠ "" then
      args ++ [Sprintf "-lock-timeout=%s" [.string config.LockTimeout]]
    else args
  let args := args ++ ["-input=false"]
  Command "terraform" args

/-- The function `installCaCert`: writes the certificate to the trust store
(the result of the write is dropped) and returns the refresh command. -/
def installCaCert (cacert : String) : List Event × Cmd :=
  ([.writeFile "/usr/local/share/ca-certificates/ca_cert.crt" cacert 0o644],
    Command "update-ca-certificates" [])

/-- The function `trace`: `fmt.Println("$", strings.Join(cmd.Args, " "))`. -/
def trace (cmd : Cmd) : List Event :=
  [.print ("$" ++ " " ++ " ".intercalate cmd.Args ++ "\n")]

/-- The working directory both the command loop of `Exec` and `tfOutput` set
on a command: the current directory when the command has none of its own and
`os.Getwd` succeeds, then joined with the root directory when one is set. -/
def setDir (w : World) (config : Config) (c : Cmd) : Cmd :=
  let c :=
    if c.Dir = "" then
      match w.getwd with
      | some wd => { c with Dir := wd }
      | none => c
    else c
  if config.RootDir ≠ "" then { c with Dir := c.Dir ++ "/" ++ config.RootDir } else c

/-- The constant `format` of `processOutput`. -/
def format : String := "%s%s%s=%s\n"

/-- The body of the `range` loop of `processOutput` for the entry `k`, `v`:
the state is the report printed so far and the buffer `b`. -/
def processEntry (config : Config) (sexp : String) (st : List Event × String)
    (kv : String × TerraformOutput) : List Event × String :=
  let k := kv.1
  let v := kv.2
  let str := Sprintf format [.string sexp, .string config.EnvPrefix, .string k, v.Value]
  let report :=
    if !v.Sensitive then
      Sprintf format [.string sexp, .string config.EnvPrefix, .string k, v.Value]
    else
      Sprintf format [.string sexp, .string config.EnvPrefix, .string k, .string "XXXXXXX"]
  (st.1 ++ [.print report], st.2 ++ str)

/-- The function `processOutput`: decodes the query output (dropping the
decoder error), prints the report, and writes the buffer to the env-file. -/
def processOutput (w : World) (config : Config) (out : List UInt8) :
    List Event × Option String :=
  let j := (w.jsonUnmarshal out).j
  let sexp := if config.ExportEnvs then "export " else ""
  let st := j.foldl (processEntry config sexp) ([.print "Outputs:\n"], "")
  (st.1 ++ [.writeFile config.EnvFile st.2 0o644], w.writeFile config.EnvFile st.2 0o644)

/-- The function `tfOutput`: runs `terraform output -json -no-color`, captures
its standard output and hands it to `processOutput`. -/
def tfOutput (w : World) (config : Config) : List Event × Option String :=
  let c := setDir w config (Command "terraform" ["output", "-json", "-no-color"])
  match w.output c with
  | .error err => ([.output c], some err)
  | .ok out =>
    let r := processOutput w config out
    (.output c :: r.1, r.2)

/-- The constant `netrcFile`: a raw string literal that opens with a line
break. -/
def netrcFile : String := "\nmachine %s\nlogin %s\npassword %s\n"

/-- The function `writeNetrc`. -/
def writeNetrc (w : World) (machine login password : String) :
    List Event × Option String :=
  if machine = "" then ([], none)
  else
    let out := Sprintf netrcFile [.string machine, .string login, .string password]
    let home :=
      match w.userCurrent with
      | some homeDir => homeDir
      | none => "/root"
    let path := w.filepathJoin home ".netrc"
    ([.writeFile path out 0o600], w.writeFile path out 0o600)

/-- The function `assumeRole`: `none` when the credentials cannot be obtained
and `logrus.Fatal` ends the process. -/
def assumeRole (w : World) (roleArn : String) : Option (List Event) :=
  match w.getCredentials roleArn with
  | .error _ => none
  | .ok value =>
    some [.setenv "AWS_ACCESS_KEY_ID" value.AccessKeyID,
      .setenv "AWS_SECRET_ACCESS_KEY" value.SecretAccessKey,
      .setenv "AWS_SESSION_TOKEN" value.SessionToken]

/-- The list `commands` that `Exec` builds, with the effects of building it. -/
def buildCommands (config : Config) : List Event × List Cmd :=
  let terraformDataDir := ".terraform"
  let st : List Event × String :=
    if config.TerraformDataDir ≠ "" then
      ([.setenv "TF_DATA_DIR" config.TerraformDataDir], config.TerraformDataDir)
    else ([], terraformDataDir)
  let terraformDataDir := st.2
  let commands : List Cmd := []
  let commands := commands ++ [Command "terraform" ["version"]]
  let ca : List Event × List Cmd :=
    if config.Cacert ≠ "" then
      ((installCaCert config.Cacert).1, commands ++ [(installCaCert config.Cacert).2])
    else ([], commands)
  let commands := ca.2
  let commands := commands ++ [deleteCache terraformDataDir]
  let commands := commands ++ [initCommand config.InitOptions]
  let commands := commands ++ [getModules]
  (st.1 ++ ca.1, commands)

/-- The command loop of `Exec`, from position `i` on: each command gets its
working directory, is echoed unless the run is sensitive, and is run; the
first failure is fatal.  The flag tells whether every command succeeded. -/
def runCommands (w : World) (config : Config) : Nat → List Cmd → List Event × Bool
  | _, [] => ([], true)
  | i, c :: cs =>
    let c := setDir w config c
    let echo := if !config.Sensitive then trace c else []
    match w.run i c with
    | some _ => (echo ++ [.run c, .fatal "Failed to execute a command"], false)
    | none =>
      let r := runCommands w config (i + 1) cs
      (echo ++ [.run c] ++ r.1, r.2)

/-- The method `Plugin.Exec`. -/
def Exec (w : World) (p : Plugin) : List Event × Outcome :=
  let inst : List Event × Option String :=
    if p.Terraform.Version ≠ "" then
      ([.install p.Terraform.Version], w.installTerraform p.Terraform.Version)
    else ([], none)
  match inst.2 with
  | some err => (inst.1, .returned (some err))
  | none =>
    let role : Option (List Event) :=
      if p.Config.RoleARN ≠ "" then assumeRole w p.Config.RoleARN else some []
    match role with
    | none => (inst.1 ++ [.fatal "Error assuming role!"], .exited)
    | some roleEvents =>
      let netrc := writeNetrc w p.Netrc.Machine p.Netrc.Login p.Netrc.Password
      match netrc.2 with
      | some err => (inst.1 ++ roleEvents ++ netrc.1, .returned (some err))
      | none =>
        let built := buildCommands p.Config
        let ran := runCommands w p.Config 0 built.2
        let before := inst.1 ++ roleEvents ++ netrc.1 ++ built.1 ++ ran.1
        if ran.2 then
          let o := tfOutput w p.Config
          match o.2 with
          | some _ => (before ++ o.1 ++ [.fatal "Failed to execute a command"], .exited)
          | none => (before ++ o.1, .returned none)
        else (before, .exited)

/-! ## Observations on a list of effects -/

/-- The files written, in order: path, content, permission mode. -/
def written : List Event → List (String × String × Nat)
  | [] => []
  | .writeFile path data perm :: es => (path, data, perm) :: written es
  | _ :: es => written es

/-- The text printed to the report stream, in order. -/
def printed : List Event → List String
  | [] => []
  | .print text :: es => text :: printed es
  | _ :: es => printed es

/-- The processes started (`Run` or `Output`), in order. -/
def started : List Event → List Event
  | [] => []
  | .run c :: es => .run c :: started es
  | .output c :: es => .output c :: started es
  | _ :: es => started es

/-- The predicate `strings.HasPrefix(s, pre)`. -/
def hasPrefix (s pre : String) : Bool :=
  pre.data.isPrefixOf s.data

/-! ## Sample surroundings -/

/-- The bytes of an ASCII text. -/
def bytes (s : String) : List UInt8 :=
  s.data.map (fun c => c.toNat.toUInt8)

/-- A query output with one plain string entry. -/
def docPlain : List UInt8 :=
  bytes "\x7b\"x\":\x7b\"sensitive\":false,\"type\":\"string\",\"value\":\"hi\"\x7d\x7d"

/-- A query output with one sensitive entry. -/
def docSecret : List UInt8 :=
  bytes "\x7b\"y\":\x7b\"sensitive\":true,\"value\":\"secret\"\x7d\x7d"

/-- A query output with one plain boolean entry. -/
def docBool : List UInt8 :=
  bytes "\x7b\"b\":\x7b\"sensitive\":false,\"type\":\"bool\",\"value\":true\x7d\x7d"

/-- A JSON object whose entry carries a string where a boolean is expected. -/
def docIllTyped : List UInt8 :=
  bytes "\x7b\"a\":\x7b\"sensitive\":\"yes\",\"value\":\"hi\"\x7d\x7d"

/-- What `json.Unmarshal` into a `map[string]TerraformOutput` leaves for five
inputs: the three well-formed documents decode in full; the empty input is a
syntax error and nothing is stored; on `docIllTyped` the decoder skips the
ill-typed field, stores the rest of the entry, and returns the type error.
Any other input is treated as a syntax error. -/
def sampleUnmarshal (out : List UInt8) : UnmarshalResult :=
  if out = docPlain then
    { j := [("x", { Sensitive := false, Type_ := "string", Value := .string "hi" })],
      err := none }
  else if out = docSecret then
    { j := [("y", { Sensitive := true, Type_ := "", Value := .string "secret" })],
      err := none }
  else if out = docBool then
    { j := [("b", { Sensitive := false, Type_ := "bool", Value := .bool true })],
      err := none }
  else if out = docIllTyped then
    { j := [("a", { Sensitive := false, Type_ := "", Value := .string "hi" })],
      err := some ("json: cannot unmarshal string into Go struct field "
        ++ "TerraformOutput.sensitive of type bool") }
  else if out = [] then { j := [], err := some "unexpected end of JSON input" }
  else { j := [], err := some "invalid character" }

/-- Surroundings in which everything succeeds and `terraform output -json`
prints `doc`. -/
def sampleWorld (doc : List UInt8) : World :=
  { installTerraform := fun _ => none
    getCredentials := fun _ =>
      .ok { AccessKeyID := "id", SecretAccessKey := "key", SessionToken := "token" }
    userCurrent := some "/home/drone"
    getwd := some "/drone/src"
    filepathJoin := fun dir name => dir ++ "/" ++ name
    writeFile := fun _ _ _ => none
    run := fun _ _ => none
    output := fun _ => .ok doc
    jsonUnmarshal := sampleUnmarshal }

/-- The configuration `main.go` builds when only the defaults apply. -/
def sampleConfig : Config :=
  { InitOptions := { BackendConfig := [], Lock := none, LockTimeout := "" }
    Cacert := ""
    Sensitive := false
    RoleARN := ""
    RootDir := ""
    TerraformDataDir := ""
    ExportEnvs := false
    EnvFile := ".env"
    EnvPrefix := "TF_OUTPUT_" }

/-- A plugin with the default configuration, no credentials for cloning and
no pinned tool version. -/
def samplePlugin : Plugin :=
  { Config := sampleConfig
    Netrc := { Machine := "", Login := "", Password := "" }
    Terraform := { Version := "" } }

/-- Surroundings in which the step at position 2 (the init step when no CA
certificate is configured) exits with a non-zero status. -/
def failingInitWorld : World :=
  { sampleWorld docPlain with
    run := fun i _ => if i = 2 then some "exit status 1" else none }

/-- The default plugin with the root directory `infra` configured. -/
def rootedPlugin : Plugin :=
  { samplePlugin with Config := { sampleConfig with RootDir := "infra" } }

/-! ## The steps of a run -/

/-- The commands of the loop of `Exec` as they are run: the list `Exec` builds,
each command with the working directory the loop sets on it. -/
def steps (w : World) (p : Plugin) : List Cmd :=
  (buildCommands p.Config).2.map (setDir w p.Config)

/-- The exit result of the step at position `i`: `none` when it exits with
status zero (and when there is no step at `i`), the error otherwise. -/
def stepResult (w : World) (p : Plugin) (i : Nat) : Option String :=
  ((steps w p)[i]?).bind (w.run i)

/-- The working directories of the processes started, in order. -/
def dirs : List Event → List String
  | [] => []
  | .run c :: es => c.Dir :: dirs es
  | .output c :: es => c.Dir :: dirs es
  | _ :: es => dirs es


/-! ## Lemmas on `fmt` -/

theorem data_toString (c : Char) : c.toString.data = [c] := rfl

theorem join_cons (a : String) (l : List String) :
    String.join (a :: l) = a ++ String.join l := by
  apply String.ext
  simp [String.data_join]

theorem Sprintf_format (a b c : String) (v : Value) :
    Sprintf format [.string a, .string b, .string c, v]
      = a ++ b ++ c ++ "=" ++ printArg .s v ++ "\n" := by
  have h : format.data = ['%', 's', '%', 's', '%', 's', '=', '%', 's', '\n'] := rfl
  apply String.ext
  simp [Sprintf, h, doPrintf, verbOf, printArg, printValue, fmtString, data_toString]

theorem Sprintf_netrcFile (m l p : String) :
    Sprintf netrcFile [.string m, .string l, .string p]
      = "\nmachine " ++ m ++ "\nlogin " ++ l ++ "\npassword " ++ p ++ "\n" := by
  have h : netrcFile.data = "\nmachine %s\nlogin %s\npassword %s\n".data := rfl
  apply String.ext
  simp [Sprintf, h, doPrintf, verbOf, printArg, printValue, fmtString, data_toString]

theorem Sprintf_backendConfig (v : String) :
    Sprintf "-backend-config=%s" [.string v] = "-backend-config=" ++ v := by
  apply String.ext
  simp [Sprintf, doPrintf, verbOf, printArg, printValue, fmtString, data_toString]

theorem Sprintf_lock (b : Bool) :
    Sprintf "-lock=%t" [.bool b] = "-lock=" ++ (if b then "true" else "false") := by
  apply String.ext
  simp [Sprintf, doPrintf, verbOf, printArg, printValue, fmtBool, data_toString]

theorem Sprintf_lockTimeout (v : String) :
    Sprintf "-lock-timeout=%s" [.string v] = "-lock-timeout=" ++ v := by
  apply String.ext
  simp [Sprintf, doPrintf, verbOf, printArg, printValue, fmtString, data_toString]

/-! ## `processOutput` -/

theorem processEntry_eq (config : Config) (st : List Event × String)
    (kv : String × TerraformOutput) :
    processEntry config (if config.ExportEnvs then "export " else "") st kv
      = (st.1 ++ [.print ((if config.ExportEnvs then "export " else "") ++ config.EnvPrefix
            ++ kv.1 ++ "=" ++ (if kv.2.Sensitive then "XXXXXXX" else printArg .s kv.2.Value)
            ++ "\n")],
          st.2 ++ ((if config.ExportEnvs then "export " else "") ++ config.EnvPrefix
            ++ kv.1 ++ "=" ++ printArg .s kv.2.Value ++ "\n")) := by
  cases hs : kv.2.Sensitive <;>
    simp [processEntry, Sprintf_format, hs, printArg, printValue, fmtString]

theorem foldl_processEntry (config : Config) (j : List (String × TerraformOutput)) :
    ∀ st : List Event × String,
      j.foldl (processEntry config (if config.ExportEnvs then "export " else "")) st
        = (st.1 ++ j.map (fun kv => Event.print
              ((if config.ExportEnvs then "export " else "") ++ config.EnvPrefix
                ++ kv.1 ++ "=" ++ (if kv.2.Sensitive then "XXXXXXX" else printArg .s kv.2.Value)
                ++ "\n")),
            st.2 ++ String.join (j.map (fun kv =>
              (if config.ExportEnvs then "export " else "") ++ config.EnvPrefix
                ++ kv.1 ++ "=" ++ printArg .s kv.2.Value ++ "\n"))) := by
  induction j with
  | nil => intro st; simp [String.join]
  | cons kv j ih =>
    intro st
    rw [List.foldl_cons, ih, processEntry_eq]
    simp [join_cons, String.append_assoc]

theorem written_append (xs ys : List Event) : written (xs ++ ys) = written xs ++ written ys := by
  induction xs with
  | nil => rfl
  | cons e xs ih => cases e <;> simp [written, ih]

theorem printed_append (xs ys : List Event) : printed (xs ++ ys) = printed xs ++ printed ys := by
  induction xs with
  | nil => rfl
  | cons e xs ih => cases e <;> simp [printed, ih]

theorem started_append (xs ys : List Event) : started (xs ++ ys) = started xs ++ started ys := by
  induction xs with
  | nil => rfl
  | cons e xs ih => cases e <;> simp [started, ih]

theorem written_map_print (f : α → String) (l : List α) :
    written (l.map (fun a => Event.print (f a))) = [] := by
  induction l with
  | nil => rfl
  | cons a l ih => simpa [written] using ih

theorem printed_map_print (f : α → String) (l : List α) :
    printed (l.map (fun a => Event.print (f a))) = l.map f := by
  induction l with
  | nil => rfl
  | cons a l ih => simpa [printed] using ih

theorem started_map_print (f : α → String) (l : List α) :
    started (l.map (fun a => Event.print (f a))) = [] := by
  induction l with
  | nil => rfl
  | cons a l ih => simpa [started] using ih

theorem processOutput_eq (w : World) (config : Config) (out : List UInt8) :
    processOutput w config out
      = (Event.print "Outputs:\n" :: (w.jsonUnmarshal out).j.map (fun kv => Event.print
              ((if config.ExportEnvs then "export " else "") ++ config.EnvPrefix
                ++ kv.1 ++ "=" ++ (if kv.2.Sensitive then "XXXXXXX" else printArg .s kv.2.Value)
                ++ "\n"))
            ++ [.writeFile config.EnvFile (String.join ((w.jsonUnmarshal out).j.map (fun kv =>
              (if config.ExportEnvs then "export " else "") ++ config.EnvPrefix
                ++ kv.1 ++ "=" ++ printArg .s kv.2.Value ++ "\n"))) 0o644],
          w.writeFile config.EnvFile (String.join ((w.jsonUnmarshal out).j.map (fun kv =>
              (if config.ExportEnvs then "export " else "") ++ config.EnvPrefix
                ++ kv.1 ++ "=" ++ printArg .s kv.2.Value ++ "\n"))) 0o644) := by
  simp [processOutput, foldl_processEntry]

theorem processOutput_written (w : World) (config : Config) (out : List UInt8) :
    written (processOutput w config out).1
      = [(config.EnvFile,
          String.join ((w.jsonUnmarshal out).j.map (fun kv =>
            (if config.ExportEnvs then "export " else "") ++ config.EnvPrefix ++ kv.1 ++ "="
              ++ printArg .s kv.2.Value ++ "\n")),
          0o644)] := by
  rw [processOutput_eq]
  simp [written, written_append, written_map_print]

/-- C1 (as the code has it): for every query output, env-prefix and export
mode, the env-file that `processOutput` writes holds, for every entry and
whatever its sensitive flag, the line `[export ]<prefix><key>=<value>` with
the real value as `%s` prints it; the flag masks the printed report only. -/
theorem processOutput_file_keeps_real_values (w : World) (config : Config)
    (out : List UInt8) :
    written (processOutput w config out).1
      = [(config.EnvFile,
          String.join ((w.jsonUnmarshal out).j.map (fun kv =>
            (if config.ExportEnvs then "export " else "") ++ config.EnvPrefix ++ kv.1 ++ "="
              ++ printArg .s kv.2.Value ++ "\n")),
          0o644)] :=
  processOutput_written w config out

/-- C1 (counterexample): for the query output
`{"y":{"sensitive":true,"value":"secret"}}` and the prefix `TF_OUTPUT_` the
env-file is `TF_OUTPUT_y=secret`, not `TF_OUTPUT_y=XXXXXXX`. -/
theorem processOutput_file_not_masked :
    written (processOutput (sampleWorld docSecret) sampleConfig docSecret).1
        = [(".env", "TF_OUTPUT_y=secret\n", 0o644)]
      ∧ written (processOutput (sampleWorld docSecret) sampleConfig docSecret).1
        ≠ [(".env", "TF_OUTPUT_y=XXXXXXX\n", 0o644)] := by
  decide

/-- C2 (as the code has it): the report that `processOutput` prints is the
heading followed, for every entry, by the line `[export ]<prefix><key>=<display>`
where the display is `XXXXXXX` for a sensitive entry and otherwise the value
as the verb `%s` prints it: a string as it is, a list as `[e1 e2]`, a map as
`map[k1:v1 k2:v2]`, and a boolean, a number and null in the bad-verb notation
of `fmt`, `%!s(bool=true)`, `%!s(float64=3)`, `%!s(<nil>)`. -/
theorem processOutput_report_masks_sensitive (w : World) (config : Config)
    (out : List UInt8) :
    printed (processOutput w config out).1
        = "Outputs:\n" :: (w.jsonUnmarshal out).j.map (fun kv =>
            (if config.ExportEnvs then "export " else "") ++ config.EnvPrefix ++ kv.1 ++ "="
              ++ (if kv.2.Sensitive then "XXXXXXX" else printArg .s kv.2.Value) ++ "\n")
      ∧ (∀ s : String, printArg .s (.string s) = s)
      ∧ (∀ xs : List Value, printArg .s (.slice xs) = "[" ++ printElems .s xs ++ "]")
      ∧ (∀ kvs : List (String × Value),
          printArg .s (.map kvs) = "map[" ++ printEntries .s kvs ++ "]")
      ∧ (∀ x y : String,
          printArg .s (.slice [.string x, .string y]) = "[" ++ x ++ " " ++ y ++ "]")
      ∧ (∀ k x : String, printArg .s (.map [(k, .string x)]) = "map[" ++ k ++ ":" ++ x ++ "]")
      ∧ printArg .s (.bool true) = "%!s(bool=true)"
      ∧ printArg .s (.bool false) = "%!s(bool=false)"
      ∧ (∀ g : String, printArg .s (.float64 g) = "%!s(float64=" ++ g ++ ")")
      ∧ printArg .s .null = "%!s(<nil>)" := by
  refine ⟨?_, fun _ => rfl, fun _ => rfl, fun _ => rfl, ?_, ?_, by decide, by decide, ?_,
    by decide⟩
  · rw [processOutput_eq]
    simp [printed, printed_append, printed_map_print]
  · intro x y
    apply String.ext
    simp [printArg, printValue, printElems, printElemsTail, fmtString]
  · intro k x
    apply String.ext
    simp [printArg, printValue, printEntries, printEntriesTail, fmtString]
  · intro g
    apply String.ext
    simp [printArg, printValue, fmtFloat, badVerb, Verb.rune, data_toString]

/-- C2 (counterexample): for the query output
`{"b":{"sensitive":false,"type":"bool","value":true}}` the line printed for the
entry is `TF_OUTPUT_b=%!s(bool=true)`, not `TF_OUTPUT_b=true`. -/
theorem processOutput_report_bool_bad_verb :
    printed (processOutput (sampleWorld docBool) sampleConfig docBool).1
        = ["Outputs:\n", "TF_OUTPUT_b=%!s(bool=true)\n"]
      ∧ printed (processOutput (sampleWorld docBool) sampleConfig docBool).1
        ≠ ["Outputs:\n", "TF_OUTPUT_b=true\n"] := by
  decide

/-- C3: when the query output is the single non-sensitive string entry `k`
with value `v`, the env-file holds exactly
`[export ]<prefix><k>=<v>` and a line break. -/
theorem processOutput_single_string (w : World) (config : Config) (out : List UInt8)
    (k v : String)
    (h : (w.jsonUnmarshal out).j
      = [(k, { Sensitive := false, Type_ := "string", Value := .string v })]) :
    written (processOutput w config out).1
      = [(config.EnvFile,
          (if config.ExportEnvs then "export " else "") ++ config.EnvPrefix ++ k ++ "=" ++ v
            ++ "\n",
          0o644)] := by
  rw [processOutput_eq, h]
  simp [written, String.join, printArg, printValue, fmtString]

/-- C3 (witness): key `x`, value `hi`, prefix `TF_OUTPUT_` give
`TF_OUTPUT_x=hi` with export mode off and `export TF_OUTPUT_x=hi` with it on. -/
theorem processOutput_single_string_witness :
    written (processOutput (sampleWorld docPlain) sampleConfig docPlain).1
        = [(".env", "TF_OUTPUT_x=hi\n", 0o644)]
      ∧ written (processOutput (sampleWorld docPlain)
          { sampleConfig with ExportEnvs := true } docPlain).1
        = [(".env", "export TF_OUTPUT_x=hi\n", 0o644)] :=
  ⟨processOutput_single_string (sampleWorld docPlain) sampleConfig docPlain "x" "hi"
      rfl,
    processOutput_single_string (sampleWorld docPlain)
      { sampleConfig with ExportEnvs := true } docPlain "x" "hi" rfl⟩

/-! ## `initCommand` -/

theorem foldl_backendConfig (l : List String) :
    ∀ args : List String,
      l.foldl (fun args v => args ++ [Sprintf "-backend-config=%s" [.string v]]) args
        = args ++ l.map (fun v => "-backend-config=" ++ v) := by
  induction l with
  | nil => intro args; simp
  | cons v l ih =>
    intro args
    rw [List.foldl_cons, ih, Sprintf_backendConfig]
    simp

theorem initCommand_eq (config : InitOptions) :
    initCommand config
      = Command "terraform" ("init" :: config.BackendConfig.map (fun v => "-backend-config=" ++ v)
          ++ (match config.Lock with
              | some true => ["-lock=true"]
              | some false => ["-lock=false"]
              | none => [])
          ++ (if config.LockTimeout = "" then [] else ["-lock-timeout=" ++ config.LockTimeout])
          ++ ["-input=false"]) := by
  rcases config with ⟨bc, lock, t⟩
  by_cases ht : t = "" <;> rcases lock with _ | _ | _ <;>
    simp [initCommand, foldl_backendConfig, Sprintf_lock, Sprintf_lockTimeout, ht]

theorem backendConfig_ne_input (v : String) : "-backend-config=" ++ v ≠ "-input=false" := by
  intro h
  have := congrArg String.data h
  simp at this

theorem lockTimeout_ne_input (v : String) : "-lock-timeout=" ++ v ≠ "-input=false" := by
  intro h
  have := congrArg String.data h
  simp at this

theorem count_input_backendConfig (l : List String) :
    (l.map (fun v => "-backend-config=" ++ v)).count "-input=false" = 0 := by
  rw [List.count_eq_zero]
  intro h
  rcases List.mem_map.1 h with ⟨v, _, hv⟩
  exact backendConfig_ne_input v hv

theorem hasPrefix_backendConfig (v : String) :
    hasPrefix ("-backend-config=" ++ v) "-backend-config=" = true := by
  simp [hasPrefix, List.isPrefixOf]

theorem backendConfig_not_lock (v : String) :
    hasPrefix ("-backend-config=" ++ v) "-lock=" = false := by
  simp [hasPrefix, List.isPrefixOf]

theorem lockTimeout_not_lock (v : String) :
    hasPrefix ("-lock-timeout=" ++ v) "-lock=" = false := by
  simp [hasPrefix, List.isPrefixOf]

theorem lockTimeout_not_backendConfig (v : String) :
    hasPrefix ("-lock-timeout=" ++ v) "-backend-config=" = false := by
  simp [hasPrefix, List.isPrefixOf]

theorem countP_backendConfig (l : List String) :
    (l.map (fun v => "-backend-config=" ++ v)).countP (fun a => hasPrefix a "-backend-config=")
      = l.length := by
  induction l with
  | nil => rfl
  | cons v l ih => simp [List.countP_cons, hasPrefix_backendConfig, ih]

theorem filter_lock_backendConfig (l : List String) :
    (l.map (fun v => "-backend-config=" ++ v)).filter (fun a => hasPrefix a "-lock=") = [] := by
  induction l with
  | nil => rfl
  | cons v l ih => simp [List.filter_cons, backendConfig_not_lock, ih]

/-- C4: whatever the backend-config list and the lock-timeout, no argument of
the command built by `initCommand` starts with `-lock=` when `Lock` is nil,
and the arguments that start with `-lock=` are exactly the one `-lock=true`
when it points to true and the one `-lock=false` when it points to false. -/
theorem initCommand_lock_flag (backendConfig : List String) (lockTimeout : String) :
    (initCommand ⟨backendConfig, none, lockTimeout⟩).Args.filter
        (fun a => hasPrefix a "-lock=") = []
      ∧ (initCommand ⟨backendConfig, some true, lockTimeout⟩).Args.filter
          (fun a => hasPrefix a "-lock=") = ["-lock=true"]
      ∧ (initCommand ⟨backendConfig, some false, lockTimeout⟩).Args.filter
          (fun a => hasPrefix a "-lock=") = ["-lock=false"] := by
  have h1 : hasPrefix "terraform" "-lock=" = false := by decide
  have h2 : hasPrefix "init" "-lock=" = false := by decide
  have h3 : hasPrefix "-input=false" "-lock=" = false := by decide
  have h4 : hasPrefix "-lock=true" "-lock=" = true := by decide
  have h5 : hasPrefix "-lock=false" "-lock=" = true := by decide
  refine ⟨?_, ?_, ?_⟩ <;> rw [initCommand_eq] <;> by_cases ht : lockTimeout = "" <;>
    simp [Command, List.filter_cons, List.filter_append, filter_lock_backendConfig, h1, h2, h3,
      h4, h5, ht, lockTimeout_not_lock]

/-- C5: the arguments `initCommand` hands to `terraform` are `init`, one
`-backend-config=<v>` per configured entry in configured order, the lock flag
if `Lock` is set, `-lock-timeout=<t>` exactly when the lock-timeout is not
empty, and `-input=false`; so `-input=false` is the last argument and occurs
once, and as many arguments start with `-backend-config=` as entries are
configured. -/
theorem initCommand_arguments (config : InitOptions) :
    (initCommand config).Path = "terraform"
      ∧ (initCommand config).Args
        = "terraform" :: ("init" :: config.BackendConfig.map (fun v => "-backend-config=" ++ v)
            ++ (match config.Lock with
                | some true => ["-lock=true"]
                | some false => ["-lock=false"]
                | none => [])
            ++ (if config.LockTimeout = "" then [] else ["-lock-timeout=" ++ config.LockTimeout])
            ++ ["-input=false"])
      ∧ (initCommand config).Args.getLast? = some "-input=false"
      ∧ (initCommand config).Args.count "-input=false" = 1
      ∧ (initCommand config).Args.countP (fun a => hasPrefix a "-backend-config=")
        = config.BackendConfig.length := by
  have h1 : hasPrefix "terraform" "-backend-config=" = false := by decide
  have h2 : hasPrefix "init" "-backend-config=" = false := by decide
  have h3 : hasPrefix "-input=false" "-backend-config=" = false := by decide
  have h4 : hasPrefix "-lock=true" "-backend-config=" = false := by decide
  have h5 : hasPrefix "-lock=false" "-backend-config=" = false := by decide
  rw [initCommand_eq]
  rcases config with ⟨bc, lock, t⟩
  refine ⟨rfl, rfl, ?_, ?_, ?_⟩
  · show ("terraform" :: (_ ++ ["-input=false"])).getLast? = _
    rw [← List.cons_append, List.getLast?_concat]
  · by_cases ht : t = "" <;> rcases lock with _ | _ | _ <;>
      simp [Command, List.count_cons, List.count_append, count_input_backendConfig, ht,
        lockTimeout_ne_input]
  · by_cases ht : t = "" <;> rcases lock with _ | _ | _ <;>
      simp [Command, List.countP_cons, List.countP_append, countP_backendConfig, ht,
        lockTimeout_not_backendConfig, h1, h2, h3, h4, h5, hasPrefix_backendConfig]

/-- C6 (as the code has it): `processOutput` never looks at the error of the
decoder.  For every byte string, whatever that error, it writes the env-file
once, with the line `[export ]<prefix><key>=<value>` of every entry the
decoder stored and nothing else, and returns the result of that write and
nothing else; so for every byte string for which the decoder stores no entry
(every input that is not valid JSON, the empty one included) the report is the
heading alone and the env-file is empty. -/
theorem processOutput_ignores_parse_error (w : World) (config : Config) (out : List UInt8) :
    (written (processOutput w config out).1
          = [(config.EnvFile,
              String.join ((w.jsonUnmarshal out).j.map (fun kv =>
                (if config.ExportEnvs then "export " else "") ++ config.EnvPrefix ++ kv.1
                  ++ "=" ++ printArg .s kv.2.Value ++ "\n")),
              0o644)]
        ∧ (processOutput w config out).2
          = w.writeFile config.EnvFile
              (String.join ((w.jsonUnmarshal out).j.map (fun kv =>
                (if config.ExportEnvs then "export " else "") ++ config.EnvPrefix ++ kv.1
                  ++ "=" ++ printArg .s kv.2.Value ++ "\n")))
              0o644)
      ∧ ((w.jsonUnmarshal out).j = [] →
          (processOutput w config out).1
              = [.print "Outputs:\n", .writeFile config.EnvFile "" 0o644]
            ∧ (processOutput w config out).2 = w.writeFile config.EnvFile "" 0o644) := by
  refine ⟨⟨processOutput_written w config out, ?_⟩, ?_⟩
  · rw [processOutput_eq]
  · intro h
    rw [processOutput_eq, h]
    simp [String.join]

/-- C6 (witness): on the empty byte string the decoder fails, nothing is
printed but the heading, and the empty env-file is written; on a document with
an ill-typed field the decoder fails too and the entry it stored is written. -/
theorem processOutput_ignores_parse_error_witness :
    (((sampleWorld []).jsonUnmarshal []).err ≠ none
        ∧ (processOutput (sampleWorld []) sampleConfig []).1
          = [.print "Outputs:\n", .writeFile ".env" "" 0o644]
        ∧ (processOutput (sampleWorld []) sampleConfig []).2 = none)
      ∧ (((sampleWorld docIllTyped).jsonUnmarshal docIllTyped).err ≠ none
        ∧ written (processOutput (sampleWorld docIllTyped) sampleConfig docIllTyped).1
          = [(".env", "TF_OUTPUT_a=hi\n", 0o644)]) :=
  ⟨⟨by decide,
      ((processOutput_ignores_parse_error (sampleWorld []) sampleConfig []).2 rfl).1,
      ((processOutput_ignores_parse_error (sampleWorld []) sampleConfig []).2 rfl).2⟩,
    ⟨by decide,
      (processOutput_ignores_parse_error (sampleWorld docIllTyped) sampleConfig
        docIllTyped).1.1⟩⟩

/-- C6 (counterexample): `{"a":{"sensitive":"yes","value":"hi"}}` cannot be
parsed as the query shape (the decoder returns a type error), yet the env-file
written is not empty: it holds the line of the entry the decoder stored. -/
theorem processOutput_parse_failure_not_empty :
    ((sampleWorld docIllTyped).jsonUnmarshal docIllTyped).err ≠ none
      ∧ written (processOutput (sampleWorld docIllTyped) sampleConfig docIllTyped).1
        = [(".env", "TF_OUTPUT_a=hi\n", 0o644)]
      ∧ written (processOutput (sampleWorld docIllTyped) sampleConfig docIllTyped).1
        ≠ [(".env", "", 0o644)] := by
  decide

/-! ## `writeNetrc` -/

/-- C9 (as the code has it): with an empty machine `writeNetrc` writes nothing
and returns no error; with a non-empty machine it writes once, to `.netrc`
joined to the home directory of the current user (`/root` when the user cannot
be looked up), with mode 0600, a line break followed by the three lines
`machine <machine>`, `login <login>`, `password <password>`, and returns the
result of that write. -/
theorem writeNetrc_content (w : World) (machine login password : String) :
    (machine = "" → writeNetrc w machine login password = ([], none))
      ∧ (machine ≠ "" →
          writeNetrc w machine login password
            = ([.writeFile (w.filepathJoin (w.userCurrent.getD "/root") ".netrc")
                  ("\nmachine " ++ machine ++ "\nlogin " ++ login ++ "\npassword " ++ password
                    ++ "\n") 0o600],
                w.writeFile (w.filepathJoin (w.userCurrent.getD "/root") ".netrc")
                  ("\nmachine " ++ machine ++ "\nlogin " ++ login ++ "\npassword " ++ password
                    ++ "\n") 0o600)) := by
  constructor
  · intro h
    simp [writeNetrc, h]
  · intro h
    cases hu : w.userCurrent <;> simp [writeNetrc, h, hu, Sprintf_netrcFile]

/-- C9 (witness): no machine, no file; machine `github.com`, one file. -/
theorem writeNetrc_content_witness :
    writeNetrc (sampleWorld []) "" "octocat" "hunter2" = ([], none)
      ∧ writeNetrc (sampleWorld []) "github.com" "octocat" "hunter2"
        = ([.writeFile "/home/drone/.netrc"
              "\nmachine github.com\nlogin octocat\npassword hunter2\n" 0o600], none) :=
  ⟨(writeNetrc_content (sampleWorld []) "" "octocat" "hunter2").1 rfl,
    (writeNetrc_content (sampleWorld []) "github.com" "octocat" "hunter2").2 (by decide)⟩

/-- C9 (counterexample): for machine `github.com` the content written is not
the three lines alone: it opens with a line break, not with `machine`. -/
theorem writeNetrc_leading_line_break :
    written (writeNetrc (sampleWorld []) "github.com" "octocat" "hunter2").1
        = [("/home/drone/.netrc", "\nmachine github.com\nlogin octocat\npassword hunter2\n",
            0o600)]
      ∧ written (writeNetrc (sampleWorld []) "github.com" "octocat" "hunter2").1
        ≠ [("/home/drone/.netrc", "machine github.com\nlogin octocat\npassword hunter2\n",
            0o600)] := by
  decide

/-! ## The command list of `Exec` -/

/-- C8: the list of steps `Exec` builds is `terraform version`, then
`update-ca-certificates` exactly when a CA certificate is configured, then
`rm -rf` of the data directory (the override when it is not empty, `.terraform`
otherwise), then the init command, then `terraform get`: five steps with a CA
certificate and four without. -/
theorem buildCommands_steps (config : Config) :
    (buildCommands config).2
        = Command "terraform" ["version"]
          :: ((if config.Cacert = "" then [] else [Command "update-ca-certificates" []])
            ++ [Command "rm"
                  ["-rf", if config.TerraformDataDir = "" then ".terraform"
                    else config.TerraformDataDir],
                initCommand config.InitOptions,
                Command "terraform" ["get"]])
      ∧ (buildCommands config).2.length = (if config.Cacert = "" then 4 else 5) := by
  by_cases hc : config.Cacert = "" <;> by_cases hd : config.TerraformDataDir = "" <;>
    simp [buildCommands, installCaCert, deleteCache, getModules, hc, hd]

/-! ## The command loop of `Exec` -/

theorem dirs_append (xs ys : List Event) : dirs (xs ++ ys) = dirs xs ++ dirs ys := by
  induction xs with
  | nil => rfl
  | cons e xs ih => cases e <;> simp [dirs, ih]

theorem dirs_map_print (f : α → String) (l : List α) :
    dirs (l.map (fun a => Event.print (f a))) = [] := by
  induction l with
  | nil => rfl
  | cons a l ih => simpa [dirs] using ih

theorem started_echo (b : Prop) [Decidable b] (c : Cmd) :
    started (if b then trace c else []) = [] := by
  by_cases h : b <;> simp [h, trace, started]

theorem dirs_echo (b : Prop) [Decidable b] (c : Cmd) :
    dirs (if b then trace c else []) = [] := by
  by_cases h : b <;> simp [h, trace, dirs]

theorem runCommands_all_ok (w : World) (config : Config) :
    ∀ (cs : List Cmd) (n : Nat),
      (∀ j, j < cs.length → (cs[j]?).bind (fun c => w.run (n + j) (setDir w config c)) = none) →
      started (runCommands w config n cs).1 = cs.map (fun c => Event.run (setDir w config c))
        ∧ (runCommands w config n cs).2 = true := by
  intro cs
  induction cs with
  | nil => intro n _; simp [runCommands, started]
  | cons c cs ih =>
    intro n h
    have h0 : w.run n (setDir w config c) = none := by
      simpa using h 0 (by simp)
    have ht : ∀ j, j < cs.length →
        (cs[j]?).bind (fun c => w.run (n + 1 + j) (setDir w config c)) = none := by
      intro j hj
      have := h (j + 1) (by simpa using hj)
      simpa [Nat.add_assoc, Nat.add_comm 1 j] using this
    obtain ⟨ih1, ih2⟩ := ih (n + 1) ht
    simp [runCommands, h0, started_append, started_echo, started, ih1, ih2]

theorem runCommands_first_failure (w : World) (config : Config) :
    ∀ (cs : List Cmd) (n i : Nat),
      (∀ j, j < i → (cs[j]?).bind (fun c => w.run (n + j) (setDir w config c)) = none) →
      (cs[i]?).bind (fun c => w.run (n + i) (setDir w config c)) ≠ none →
      started (runCommands w config n cs).1
          = (cs.take (i + 1)).map (fun c => Event.run (setDir w config c))
        ∧ (runCommands w config n cs).2 = false := by
  intro cs
  induction cs with
  | nil => intro n i _ hf; simp at hf
  | cons c cs ih =>
    intro n i hok hf
    cases i with
    | zero =>
      have h0 : w.run n (setDir w config c) ≠ none := by simpa using hf
      obtain ⟨e, he⟩ := Option.ne_none_iff_exists'.1 h0
      simp [runCommands, he, started_append, started_echo, started]
    | succ i =>
      have h0 : w.run n (setDir w config c) = none := by
        simpa using hok 0 (by simp)
      have hok' : ∀ j, j < i →
          (cs[j]?).bind (fun c => w.run (n + 1 + j) (setDir w config c)) = none := by
        intro j hj
        have := hok (j + 1) (by simpa using hj)
        simpa [Nat.add_assoc, Nat.add_comm 1 j] using this
      have hf' : (cs[i]?).bind (fun c => w.run (n + 1 + i) (setDir w config c)) ≠ none := by
        simpa [Nat.add_assoc, Nat.add_comm 1 i] using hf
      obtain ⟨ih1, ih2⟩ := ih (n + 1) i hok' hf'
      simp [runCommands, h0, started_append, started_echo, started, ih1, ih2]

/-! ## `Exec` -/

theorem started_writeNetrc (w : World) (m l p : String) :
    started (writeNetrc w m l p).1 = [] := by
  by_cases h : m = "" <;> simp [writeNetrc, h, started]

theorem started_buildCommands (config : Config) : started (buildCommands config).1 = [] := by
  by_cases hc : config.Cacert = "" <;> by_cases hd : config.TerraformDataDir = "" <;>
    simp [buildCommands, installCaCert, hc, hd, started]

theorem started_processOutput (w : World) (config : Config) (out : List UInt8) :
    started (processOutput w config out).1 = [] := by
  rw [processOutput_eq]
  simp [started, started_append, started_map_print]

theorem started_tfOutput (w : World) (config : Config) :
    started (tfOutput w config).1
      = [.output (setDir w config (Command "terraform" ["output", "-json", "-no-color"]))] := by
  cases h : w.output (setDir w config (Command "terraform" ["output", "-json", "-no-color"])) <;>
    simp [tfOutput, h, started, started_processOutput]

theorem Exec_install (w : World) (p : Plugin)
    (hinst : p.Terraform.Version = "" ∨ w.installTerraform p.Terraform.Version = none) :
    ∃ evs, (if p.Terraform.Version ≠ "" then
          (([.install p.Terraform.Version] : List Event),
            w.installTerraform p.Terraform.Version)
        else ([], none)) = (evs, none) ∧ started evs = [] ∧ dirs evs = [] := by
  by_cases hv : p.Terraform.Version = ""
  · exact ⟨[], by simp [hv], rfl, rfl⟩
  · rcases hinst with h | h
    · exact absurd h hv
    · exact ⟨[.install p.Terraform.Version], by simp [hv, h], rfl, rfl⟩

theorem Exec_role (w : World) (p : Plugin)
    (hrole : p.Config.RoleARN = "" ∨ ∃ c, w.getCredentials p.Config.RoleARN = .ok c) :
    ∃ evs, (if p.Config.RoleARN ≠ "" then assumeRole w p.Config.RoleARN else some [])
      = some evs ∧ started evs = [] := by
  by_cases hr : p.Config.RoleARN = ""
  · exact ⟨[], by simp [hr], rfl⟩
  · rcases hrole with h | ⟨c, h⟩
    · exact absurd h hr
    · have h' : assumeRole w p.Config.RoleARN
          = some [.setenv "AWS_ACCESS_KEY_ID" c.AccessKeyID,
              .setenv "AWS_SECRET_ACCESS_KEY" c.SecretAccessKey,
              .setenv "AWS_SESSION_TOKEN" c.SessionToken] := by
        simp [assumeRole, h]
      refine ⟨[.setenv "AWS_ACCESS_KEY_ID" c.AccessKeyID,
        .setenv "AWS_SECRET_ACCESS_KEY" c.SecretAccessKey,
        .setenv "AWS_SESSION_TOKEN" c.SessionToken], ?_, rfl⟩
      simp [hr, h']

theorem started_Exec (w : World) (p : Plugin)
    (hinst : p.Terraform.Version = "" ∨ w.installTerraform p.Terraform.Version = none)
    (hrole : p.Config.RoleARN = "" ∨ ∃ c, w.getCredentials p.Config.RoleARN = .ok c)
    (hnetrc : (writeNetrc w p.Netrc.Machine p.Netrc.Login p.Netrc.Password).2 = none) :
    started (Exec w p).1
        = started (runCommands w p.Config 0 (buildCommands p.Config).2).1
          ++ (if (runCommands w p.Config 0 (buildCommands p.Config).2).2 then
              [.output (setDir w p.Config (Command "terraform" ["output", "-json", "-no-color"]))]
            else [])
      ∧ ((runCommands w p.Config 0 (buildCommands p.Config).2).2 = false →
          (Exec w p).2 = .exited) := by
  obtain ⟨ievs, h1, h1', _⟩ := Exec_install w p hinst
  obtain ⟨revs, h2, h2'⟩ := Exec_role w p hrole
  unfold Exec
  simp only [h1, h2, hnetrc]
  cases hran : (runCommands w p.Config 0 (buildCommands p.Config).2).2
  · simp [started_append, h1', h2', started_writeNetrc, started_buildCommands]
  · cases ho : (tfOutput w p.Config).2 <;>
      simp [started_append, h1', h2', started_writeNetrc, started_buildCommands,
        started_tfOutput, started, ho]

theorem stepResult_eq (w : World) (p : Plugin) (j : Nat) :
    stepResult w p j
      = ((buildCommands p.Config).2[j]?).bind (fun c => w.run (0 + j) (setDir w p.Config c)) := by
  cases h : (buildCommands p.Config).2[j]? <;> simp [stepResult, steps, List.getElem?_map, h]

/-- C7: once the run has reached the command loop (the tool is installed, the
role is assumed and the credential file is written, where configured), if the
step at position `i` is the first to fail then the processes started are the
steps `0..i` in order and nothing else (no later step, no output query) and the
run ends in failure; if no step fails, every step is started once, in order,
and then the output query. -/
theorem Exec_stops_at_first_failure (w : World) (p : Plugin)
    (hinst : p.Terraform.Version = "" ∨ w.installTerraform p.Terraform.Version = none)
    (hrole : p.Config.RoleARN = "" ∨ ∃ c, w.getCredentials p.Config.RoleARN = .ok c)
    (hnetrc : (writeNetrc w p.Netrc.Machine p.Netrc.Login p.Netrc.Password).2 = none) :
    (∀ i, (∀ j, j < i → stepResult w p j = none) → stepResult w p i ≠ none →
        started (Exec w p).1 = ((steps w p).take (i + 1)).map Event.run
          ∧ (Exec w p).2 = .exited)
      ∧ ((∀ j, j < (steps w p).length → stepResult w p j = none) →
          started (Exec w p).1
            = (steps w p).map Event.run
              ++ [.output (setDir w p.Config
                    (Command "terraform" ["output", "-json", "-no-color"]))]) := by
  obtain ⟨hs, hx⟩ := started_Exec w p hinst hrole hnetrc
  constructor
  · intro i hok hfail
    have hok' : ∀ j, j < i → ((buildCommands p.Config).2[j]?).bind
        (fun c => w.run (0 + j) (setDir w p.Config c)) = none := by
      intro j hj
      rw [← stepResult_eq]
      exact hok j hj
    have hfail' : ((buildCommands p.Config).2[i]?).bind
        (fun c => w.run (0 + i) (setDir w p.Config c)) ≠ none := by
      rw [← stepResult_eq]
      exact hfail
    obtain ⟨r1, r2⟩ :=
      runCommands_first_failure w p.Config (buildCommands p.Config).2 0 i hok' hfail'
    refine ⟨?_, hx r2⟩
    rw [hs, r1, r2]
    simp [steps, List.map_take, Function.comp_def]
  · intro hok
    have hok' : ∀ j, j < (buildCommands p.Config).2.length →
        ((buildCommands p.Config).2[j]?).bind
          (fun c => w.run (0 + j) (setDir w p.Config c)) = none := by
      intro j hj
      rw [← stepResult_eq]
      exact hok j (by simpa [steps] using hj)
    obtain ⟨r1, r2⟩ := runCommands_all_ok w p.Config (buildCommands p.Config).2 0 hok'
    rw [hs, r1, r2]
    simp [steps, Function.comp_def]

/-- C7 (witness): with the default configuration, when the init step (position
2) fails, `terraform version`, `rm -rf .terraform` and `terraform init` are
started and nothing else, and the run ends in failure; when no step fails all
four steps are started and then the output query. -/
theorem Exec_stops_at_first_failure_witness :
    (started (Exec failingInitWorld samplePlugin).1
        = [.run ⟨"terraform", ["terraform", "version"], "/drone/src"⟩,
            .run ⟨"rm", ["rm", "-rf", ".terraform"], "/drone/src"⟩,
            .run ⟨"terraform", ["terraform", "init", "-input=false"], "/drone/src"⟩]
        ∧ (Exec failingInitWorld samplePlugin).2 = .exited)
      ∧ started (Exec (sampleWorld docPlain) samplePlugin).1
        = [.run ⟨"terraform", ["terraform", "version"], "/drone/src"⟩,
            .run ⟨"rm", ["rm", "-rf", ".terraform"], "/drone/src"⟩,
            .run ⟨"terraform", ["terraform", "init", "-input=false"], "/drone/src"⟩,
            .run ⟨"terraform", ["terraform", "get"], "/drone/src"⟩,
            .output ⟨"terraform", ["terraform", "output", "-json", "-no-color"],
              "/drone/src"⟩] :=
  ⟨(Exec_stops_at_first_failure failingInitWorld samplePlugin (Or.inl rfl) (Or.inl rfl)
      rfl).1 2 (by decide) (by decide),
    (Exec_stops_at_first_failure (sampleWorld docPlain) samplePlugin (Or.inl rfl) (Or.inl rfl)
      rfl).2 (by decide)⟩

/-! ## Working directories -/

theorem dirs_writeNetrc (w : World) (m l p : String) : dirs (writeNetrc w m l p).1 = [] := by
  by_cases h : m = "" <;> simp [writeNetrc, h, dirs]

theorem dirs_buildCommands (config : Config) : dirs (buildCommands config).1 = [] := by
  by_cases hc : config.Cacert = "" <;> by_cases hd : config.TerraformDataDir = "" <;>
    simp [buildCommands, installCaCert, hc, hd, dirs]

theorem dirs_assumeRole (w : World) (r : String) (evs : List Event)
    (h : assumeRole w r = some evs) : dirs evs = [] := by
  unfold assumeRole at h
  split at h
  · cases h
  · cases h; rfl

theorem dirs_processOutput (w : World) (config : Config) (out : List UInt8) :
    dirs (processOutput w config out).1 = [] := by
  rw [processOutput_eq]
  simp [dirs, dirs_append, dirs_map_print]

theorem dirs_tfOutput (w : World) (config : Config) :
    dirs (tfOutput w config).1
      = [(setDir w config (Command "terraform" ["output", "-json", "-no-color"])).Dir] := by
  cases h : w.output (setDir w config (Command "terraform" ["output", "-json", "-no-color"])) <;>
    simp [tfOutput, h, dirs, dirs_processOutput]

theorem dirs_runCommands (w : World) (config : Config) :
    ∀ (cs : List Cmd) (n : Nat) (d : String),
      d ∈ dirs (runCommands w config n cs).1 → ∃ c ∈ cs, d = (setDir w config c).Dir := by
  intro cs
  induction cs with
  | nil => intro n d h; simp [runCommands, dirs] at h
  | cons c cs ih =>
    intro n d h
    cases hr : w.run n (setDir w config c) with
    | some e =>
      simp [runCommands, hr, dirs_append, dirs_echo, dirs] at h
      exact ⟨c, by simp, h⟩
    | none =>
      simp [runCommands, hr, dirs_append, dirs_echo, dirs] at h
      rcases h with h | h
      · exact ⟨c, by simp, h⟩
      · obtain ⟨c', hc', hd⟩ := ih (n + 1) d h
        exact ⟨c', by simp [hc'], hd⟩

theorem setDir_Dir (w : World) (config : Config) (c : Cmd) (cwd : String)
    (hwd : w.getwd = some cwd) (hc : c.Dir = "") :
    (setDir w config c).Dir
      = if config.RootDir = "" then cwd else cwd ++ "/" ++ config.RootDir := by
  by_cases hr : config.RootDir = "" <;> simp [setDir, hwd, hc, hr]

theorem buildCommands_Dir (config : Config) :
    ∀ c ∈ (buildCommands config).2, c.Dir = "" := by
  intro c hc
  by_cases h1 : config.Cacert = "" <;> by_cases hd : config.TerraformDataDir = "" <;>
    simp [buildCommands, installCaCert, deleteCache, getModules, h1, hd, initCommand_eq] at hc <;>
    rcases hc with rfl | rfl | rfl | rfl | rfl <;> rfl

theorem dirs_Exec (w : World) (p : Plugin) (d : String) (h : d ∈ dirs (Exec w p).1) :
    d ∈ dirs (runCommands w p.Config 0 (buildCommands p.Config).2).1
      ∨ d = (setDir w p.Config (Command "terraform" ["output", "-json", "-no-color"])).Dir := by
  have hi : dirs (if p.Terraform.Version ≠ "" then
        (([.install p.Terraform.Version] : List Event),
          w.installTerraform p.Terraform.Version)
      else ([], none)).1 = [] := by
    by_cases hv : p.Terraform.Version = "" <;> simp [hv, dirs]
  have hi' : dirs (if p.Terraform.Version = "" then (([] : List Event), none)
      else ([.install p.Terraform.Version], w.installTerraform p.Terraform.Version)).1 = [] := by
    by_cases hv : p.Terraform.Version = "" <;> simp [hv, dirs]
  have hrole : ∀ evs, (if p.Config.RoleARN ≠ "" then assumeRole w p.Config.RoleARN
      else some []) = some evs → dirs evs = [] := by
    intro evs he
    by_cases hr : p.Config.RoleARN = ""
    · simp [hr] at he
      subst he
      rfl
    · simp [hr] at he
      exact dirs_assumeRole w _ evs he
  unfold Exec at h
  simp only [] at h
  split at h
  · rw [hi] at h
    simp at h
  · split at h
    · simp [dirs_append, hi', dirs] at h
    · rename_i evs he
      have he' := hrole evs he
      split at h
      · simp [dirs_append, hi', he', dirs_writeNetrc] at h
      · split at h
        · split at h
          · simp [dirs_append, hi', he', dirs_writeNetrc, dirs_buildCommands, dirs_tfOutput,
              dirs] at h
            exact h
          · simp [dirs_append, hi', he', dirs_writeNetrc, dirs_buildCommands, dirs_tfOutput,
              dirs] at h
            exact h
        · simp [dirs_append, hi', he', dirs_writeNetrc, dirs_buildCommands] at h
          exact Or.inl h

/-- C10: when the current directory of the process is `cwd`, every process
that `Exec` starts, the steps of the command loop and the output query of
`tfOutput` alike, runs in `cwd` when no root directory is configured and in
`cwd ++ "/" ++ RootDir` when one is. -/
theorem Exec_working_directory (w : World) (p : Plugin) (cwd : String)
    (hwd : w.getwd = some cwd) :
    ∀ d ∈ dirs (Exec w p).1,
      d = if p.Config.RootDir = "" then cwd else cwd ++ "/" ++ p.Config.RootDir := by
  intro d hd
  rcases dirs_Exec w p d hd with h | h
  · obtain ⟨c, hc, rfl⟩ := dirs_runCommands w p.Config _ 0 d h
    exact setDir_Dir w p.Config c cwd hwd (buildCommands_Dir p.Config c hc)
  · rw [h]
    exact setDir_Dir w p.Config _ cwd hwd rfl

/-- C10 (witness): with current directory `/drone/src`, the four steps and the
output query all run in `/drone/src` when no root directory is configured and
in `/drone/src/infra` when the root directory is `infra`. -/
theorem Exec_working_directory_witness :
    (dirs (Exec (sampleWorld docPlain) samplePlugin).1
        = ["/drone/src", "/drone/src", "/drone/src", "/drone/src", "/drone/src"]
      ∧ ∀ d ∈ dirs (Exec (sampleWorld docPlain) samplePlugin).1, d = "/drone/src")
      ∧ (dirs (Exec (sampleWorld docPlain) rootedPlugin).1
          = ["/drone/src/infra", "/drone/src/infra", "/drone/src/infra", "/drone/src/infra",
              "/drone/src/infra"]
        ∧ ∀ d ∈ dirs (Exec (sampleWorld docPlain) rootedPlugin).1, d = "/drone/src/infra") :=
  ⟨⟨by decide, Exec_working_directory (sampleWorld docPlain) samplePlugin "/drone/src" rfl⟩,
    ⟨by decide, Exec_working_directory (sampleWorld docPlain) rootedPlugin "/drone/src" rfl⟩⟩

end TfOutputs
